import Mathlib

/-!
# Verification of the jrp-scores-backup synchronization scripts

Shallow embedding of `src/script/JRP_scraper.py` and
`src/script/Josquin_PDF_scraper.py`.

External collaborators are modelled explicitly:
* the filesystem is an association list from path strings to file data;
* a binary file's observable content is abstracted to the pair
  (size in bytes, structural well-formedness as judged by `pdfinfo`);
* `requests.get` is a function from URL to `Option FileData`
  (`none` = transport error or non-success HTTP status, i.e. the paths on
  which `requests.get` or `raise_for_status` raises);
* the `pdfinfo` tool invocation yields exit 0 on a well-formed file,
  a non-zero exit (Python `subprocess.CalledProcessError`) on a malformed
  one, and an invocation error (Python `OSError` / `FileNotFoundError`,
  which `except subprocess.CalledProcessError` does not catch) when the
  tool is not installed;
* the `pdfunite` tool invocation either exits 0 writing the output file,
  or exits non-zero, possibly leaving a partial output file behind.

Python functions that can raise an uncaught exception are embedded as
`Except Unit` computations; `.error ()` is an exception propagating out of
the embedded function.
-/

deriving instance DecidableEq for Except

/-- Observable content of an on-disk binary file: its size in bytes and
whether the structural validator (`pdfinfo`) considers it well-formed. -/
structure FileData where
  size : Nat
  wellFormed : Bool
deriving DecidableEq, Repr

/-- The filesystem: a finite map from path to file data, as an association
list.  A path is absent iff `os.path.exists` is false for it. -/
abbrev FS := List (String × FileData)

/-- `os.path.exists`. -/
def FS.exists (fs : FS) (p : String) : Bool :=
  match fs with
  | [] => false
  | (q, _) :: rest => if q = p then true else FS.exists rest p

/-- Content of the file at `p`, if it exists. -/
def FS.lookup (fs : FS) (p : String) : Option FileData :=
  match fs with
  | [] => none
  | (q, d) :: rest => if q = p then some d else FS.lookup rest p

/-- `os.remove` (a no-op here when the path is absent; the scripts always
guard removal with an existence check). -/
def FS.remove (fs : FS) (p : String) : FS :=
  match fs with
  | [] => []
  | (q, d) :: rest => if q = p then FS.remove rest p else (q, d) :: FS.remove rest p

/-- `open(p, "wb")` followed by writing the full content `d`. -/
def FS.write (fs : FS) (p : String) (d : FileData) : FS :=
  (p, d) :: FS.remove fs p

/-- Outcome of one `subprocess.run(["pdfinfo", path], check=True)` call. -/
inductive ToolOutcome where
  | ok
  | nonzero
  | invocError
deriving DecidableEq, Repr

/-- Outcome of one `subprocess.run(["pdfunite", ...], check=True)` call:
exit 0 having written `out` to the output path, or a non-zero exit
(`CalledProcessError`) that may or may not have left a partial output
file behind. -/
inductive MergeToolResult where
  | success (out : FileData)
  | failed (partialOut : Option FileData)
deriving DecidableEq, Repr

/-- The external world the scripts interact with (everything except the
filesystem, which is threaded through explicitly). -/
structure Env where
  /-- Whether the `pdfinfo` executable can be launched at all. -/
  toolInstalled : Bool
  /-- `requests.get` on a URL: `none` models a transport error or a
  non-2xx status (i.e. `raise_for_status` raising). -/
  http : String → Option FileData
  /-- `pdfunite` invoked on the given input paths and output path. -/
  pdfunite : List String → String → MergeToolResult

/-- Result of running `pdfinfo` on a file with content `d`. -/
def runPdfinfo (env : Env) (d : FileData) : ToolOutcome :=
  if env.toolInstalled then
    if d.wellFormed then .ok else .nonzero
  else .invocError

-- ==============================
-- CONFIG (shared by both scripts)
-- ==============================

def BASE_URL : String := "https://josquin.stanford.edu/cgi-bin/jrp"

def MIN_VALID_SIZE : Nat := 15000

def SCORES_ROOT : String := "../scores"

def SECTION_DIR : String := "jrp_section_pdfs"

def MERGED_DIR : String := "jrp_merged_works"

/-- Python string slicing `s[:n]` (by code points). -/
def take_chars (n : Nat) (s : String) : String := ⟨s.data.take n⟩

-- ==============================
-- PATH HELPERS (JRP_scraper.py)
-- ==============================

/-- `composer_folder` of JRP_scraper.py (the `os.makedirs` side effect,
which only creates directories, is not modelled). -/
def composer_folder (work_id : String) : String :=
  SCORES_ROOT ++ "/" ++ take_chars 3 work_id

/-- `pdf_path` of JRP_scraper.py. -/
def pdf_path (work_id version : String) : String :=
  composer_folder work_id ++ "/" ++ work_id ++ "-" ++ version ++ ".pdf"

/-- `merged_pdf_path` of JRP_scraper.py. -/
def merged_pdf_path (work_base version : String) : String :=
  composer_folder work_base ++ "/" ++ work_base ++ "-" ++ version ++ ".pdf"

/-- Section artifact path of Josquin_PDF_scraper.py
(`os.path.join(SECTION_DIR, f"{section_id}-{version}.pdf")`). -/
def section_pdf_path (section_id version : String) : String :=
  SECTION_DIR ++ "/" ++ section_id ++ "-" ++ version ++ ".pdf"

/-- Merged artifact path of Josquin_PDF_scraper.py
(`os.path.join(MERGED_DIR, f"{work_base}-{version}.pdf")`). -/
def josquin_merged_path (work_base version : String) : String :=
  MERGED_DIR ++ "/" ++ work_base ++ "-" ++ version ++ ".pdf"

/-- The download URL for a `(work_id, version)` pair (JRP_scraper.py lines
117-120; Josquin_PDF_scraper.py lines 64-67 are identical). -/
def url_for (work_id version : String) : String :=
  if version = "no_edit" then
    BASE_URL ++ "?a=notationNoEditText&f=" ++ work_id
  else
    BASE_URL ++ "?a=notationEditText&f=" ++ work_id

-- ==============================
-- METADATA MODEL
-- ==============================

/-- One record of works.json.  Only the two fields the scripts read are
modelled; `DATE_CHANGED` is optional because the scripts access it with
`w.get("DATE_CHANGED", "")`. -/
structure Record where
  WORK_ID : String
  DATE_CHANGED : Option String
deriving DecidableEq, Repr

/-- A snapshot map `{w["WORK_ID"]: w for w in list}`: an association list
from work id to record, in key insertion order, later duplicates
overwriting earlier ones (Python dict semantics). -/
abbrev Works := List (String × Record)

/-- Python dict assignment `d[k] = r`. -/
def dictInsert (w : Works) (k : String) (r : Record) : Works :=
  match w with
  | [] => [(k, r)]
  | (k', r') :: rest =>
      if k' = k then (k, r) :: rest else (k', r') :: dictInsert rest k r

/-- `{w["WORK_ID"]: w for w in l}`. -/
def build_works (l : List Record) : Works :=
  l.foldl (fun acc w => dictInsert acc w.WORK_ID w) []

/-- `d.keys()`. -/
def keysOf (w : Works) : List String := w.map (fun e => e.1)

/-- `d[k]` / `k in d`. -/
def lookupW (w : Works) (id : String) : Option Record :=
  match w with
  | [] => none
  | (k, r) :: rest => if k = id then some r else lookupW rest id

/-- `d[id].get("DATE_CHANGED", "")` (empty string when the id is absent;
the scripts only call this for present ids). -/
def dateOf (w : Works) (id : String) : String :=
  match lookupW w id with
  | some r => r.DATE_CHANGED.getD ""
  | none => ""

-- ==============================
-- PYTHON set() AND sorted()
-- ==============================

/-- List membership test on strings. -/
def memb (l : List String) (x : String) : Bool :=
  match l with
  | [] => false
  | y :: ys => if y = x then true else memb ys x

/-- Deduplication, modelling conversion of a key list to a Python `set`
(only membership of the result matters: it is sorted before use). -/
def dedup (l : List String) : List String :=
  match l with
  | [] => []
  | x :: xs => if memb xs x then dedup xs else x :: dedup xs

/-- Code-point lexicographic strict order on strings, the order Python
`sorted` uses for `str`. -/
def strLt (a b : List Char) : Bool :=
  match a, b with
  | [], [] => false
  | [], _ :: _ => true
  | _ :: _, [] => false
  | c :: cs, d :: ds =>
      if c.toNat < d.toNat then true
      else if d.toNat < c.toNat then false
      else strLt cs ds

/-- Insert into an ascending-sorted list. -/
def insertStr (x : String) (l : List String) : List String :=
  match l with
  | [] => [x]
  | y :: ys => if strLt y.data x.data then y :: insertStr x ys else x :: y :: ys

/-- Python `sorted` on a list of strings (insertion sort; for settling the
claims only membership and the concrete evaluations matter). -/
def sortStrings (l : List String) : List String :=
  match l with
  | [] => []
  | x :: xs => insertStr x (sortStrings xs)

-- ==============================
-- METADATA DIFF REPORT (JRP_scraper.py, report_metadata_differences)
-- ==============================

/-- The classification computed by `report_metadata_differences`.  The
Python function returns `(added, removed, updated)` and computes
`unchanged` in the same loop for its printed report; all four lists are
collected here. -/
structure DiffReport where
  added : List String
  removed : List String
  updated : List (String × String × String)
  unchanged : List String
deriving DecidableEq, Repr

/-- The classification loop over `sorted(old_ids & new_ids)`:
`old_works[id].get("DATE_CHANGED","") != new_works[id].get(...)` puts
`(id, old_date, new_date)` into `updated`, else `id` into `unchanged`. -/
def classify_common (old_works new_works : Works) (l : List String) :
    List (String × String × String) × List String :=
  match l with
  | [] => ([], [])
  | id :: rest =>
      let prev := classify_common old_works new_works rest
      let od := dateOf old_works id
      let nd := dateOf new_works id
      if od ≠ nd then ((id, od, nd) :: prev.1, prev.2) else (prev.1, id :: prev.2)

/-- `report_metadata_differences` of JRP_scraper.py (lines 205-249),
restricted to its computation (the printing is not modelled). -/
def report_metadata_differences (old_works new_works : Works) : DiffReport :=
  let old_ids := dedup (keysOf old_works)
  let new_ids := dedup (keysOf new_works)
  let added := sortStrings (new_ids.filter (fun id => !(memb old_ids id)))
  let removed := sortStrings (old_ids.filter (fun id => !(memb new_ids id)))
  let common := sortStrings (old_ids.filter (fun id => memb new_ids id))
  let both := classify_common old_works new_works common
  ⟨added, removed, both.1, both.2⟩

-- ==============================
-- MEMBERSHIP LEMMAS
-- ==============================

theorem memb_iff (l : List String) (x : String) : memb l x = true ↔ x ∈ l := by
  induction l with
  | nil => simp [memb]
  | cons y ys ih =>
      simp only [memb, List.mem_cons]
      by_cases h : y = x
      · simp [h]
      · rw [if_neg h, ih]
        constructor
        · exact Or.inr
        · intro hx
          rcases hx with h1 | h2
          · exact absurd h1.symm h
          · exact h2

theorem mem_dedup (l : List String) (x : String) : x ∈ dedup l ↔ x ∈ l := by
  induction l with
  | nil => simp [dedup]
  | cons y ys ih =>
      simp only [dedup]
      by_cases h : memb ys y = true
      · rw [if_pos h]
        rw [ih]
        constructor
        · exact fun hx => List.mem_cons_of_mem _ hx
        · intro hx
          rcases List.mem_cons.mp hx with h1 | h2
          · rw [h1]; exact (memb_iff ys y).mp h
          · exact h2
      · rw [if_neg h]
        simp [ih]

theorem mem_insertStr (x : String) (l : List String) (a : String) :
    a ∈ insertStr x l ↔ a = x ∨ a ∈ l := by
  induction l with
  | nil => simp [insertStr]
  | cons y ys ih =>
      simp only [insertStr]
      by_cases h : strLt y.data x.data = true
      · rw [if_pos h]
        simp only [List.mem_cons, ih]
        tauto
      · rw [if_neg h]
        simp only [List.mem_cons]

theorem mem_sortStrings (l : List String) (a : String) :
    a ∈ sortStrings l ↔ a ∈ l := by
  induction l with
  | nil => simp [sortStrings]
  | cons y ys ih =>
      simp only [sortStrings]
      rw [mem_insertStr]
      simp only [List.mem_cons, ih]

theorem mem_classify_updated (ow nw : Works) (l : List String)
    (id od nd : String) :
    (id, od, nd) ∈ (classify_common ow nw l).1 ↔
      id ∈ l ∧ od = dateOf ow id ∧ nd = dateOf nw id ∧
        dateOf ow id ≠ dateOf nw id := by
  induction l with
  | nil => simp [classify_common]
  | cons a rest ih =>
      simp only [classify_common]
      by_cases h : dateOf ow a ≠ dateOf nw a
      · rw [if_pos h]
        constructor
        · intro hmem
          rcases List.mem_cons.mp hmem with heq | hrest
          · obtain ⟨h1, h2, h3⟩ : id = a ∧ od = dateOf ow a ∧ nd = dateOf nw a := by
              simpa using heq
            subst h1
            exact ⟨List.mem_cons_self _ _, h2, h3, h⟩
          · obtain ⟨hl, h2, h3, h4⟩ := ih.mp hrest
            exact ⟨List.mem_cons_of_mem _ hl, h2, h3, h4⟩
        · rintro ⟨hl, h2, h3, h4⟩
          rcases List.mem_cons.mp hl with heq | hrest
          · subst heq
            exact List.mem_cons.mpr (Or.inl (by rw [h2, h3]))
          · exact List.mem_cons_of_mem _ (ih.mpr ⟨hrest, h2, h3, h4⟩)
      · rw [if_neg h]
        rw [ih]
        constructor
        · rintro ⟨hl, h2, h3, h4⟩
          exact ⟨List.mem_cons_of_mem _ hl, h2, h3, h4⟩
        · rintro ⟨hl, h2, h3, h4⟩
          rcases List.mem_cons.mp hl with heq | hrest
          · subst heq; exact absurd h4 h
          · exact ⟨hrest, h2, h3, h4⟩

theorem mem_classify_unchanged (ow nw : Works) (l : List String) (id : String) :
    id ∈ (classify_common ow nw l).2 ↔
      id ∈ l ∧ dateOf ow id = dateOf nw id := by
  induction l with
  | nil => simp [classify_common]
  | cons a rest ih =>
      simp only [classify_common]
      by_cases h : dateOf ow a ≠ dateOf nw a
      · rw [if_pos h]
        rw [ih]
        constructor
        · rintro ⟨hl, h2⟩
          exact ⟨List.mem_cons_of_mem _ hl, h2⟩
        · rintro ⟨hl, h2⟩
          rcases List.mem_cons.mp hl with heq | hrest
          · subst heq; exact absurd h2 h
          · exact ⟨hrest, h2⟩
      · rw [if_neg h]
        rw [not_not] at h
        constructor
        · intro hmem
          rcases List.mem_cons.mp hmem with heq | hrest
          · subst heq; exact ⟨List.mem_cons_self _ _, h⟩
          · obtain ⟨hl, h2⟩ := ih.mp hrest
            exact ⟨List.mem_cons_of_mem _ hl, h2⟩
        · rintro ⟨hl, h2⟩
          rcases List.mem_cons.mp hl with heq | hrest
          · subst heq; exact List.mem_cons_self _ _
          · exact List.mem_cons_of_mem _ (ih.mpr ⟨hrest, h2⟩)

theorem memb_false_iff (l : List String) (x : String) :
    (!memb l x) = true ↔ x ∉ l := by
  rw [Bool.not_eq_true', ← Bool.not_eq_true, memb_iff]

theorem mem_diff_added (ow nw : Works) (x : String) :
    x ∈ (report_metadata_differences ow nw).added ↔
      x ∈ keysOf nw ∧ x ∉ keysOf ow := by
  simp only [report_metadata_differences]
  rw [mem_sortStrings, List.mem_filter, mem_dedup, memb_false_iff, mem_dedup]

theorem mem_diff_removed (ow nw : Works) (x : String) :
    x ∈ (report_metadata_differences ow nw).removed ↔
      x ∈ keysOf ow ∧ x ∉ keysOf nw := by
  simp only [report_metadata_differences]
  rw [mem_sortStrings, List.mem_filter, mem_dedup, memb_false_iff, mem_dedup]

theorem mem_diff_common (ow nw : Works) (x : String) :
    x ∈ sortStrings ((dedup (keysOf ow)).filter
        (fun id => memb (dedup (keysOf nw)) id)) ↔
      x ∈ keysOf ow ∧ x ∈ keysOf nw := by
  rw [mem_sortStrings, List.mem_filter, mem_dedup, memb_iff, mem_dedup]

/-- C1: the reconciler classifies ids as: `added` = ids present in `new`
but not in `old`; `removed` = ids present in `old` but not in `new`; and
for every id present in both, `updated` (with its old and new dates) iff
the `DATE_CHANGED` field (missing treated as the empty string) differs
between the two snapshots, else `unchanged`.  In particular, for
`old = {A: "t1", B: "t2"}` and `new = {B: "t2", C: "t3"}` it yields
`added = [C]`, `removed = [A]`, `updated = []`, `unchanged = [B]`. -/
theorem claim1_reconciler_classification :
    (∀ old_works new_works : Works,
      (∀ id, id ∈ (report_metadata_differences old_works new_works).added ↔
        (id ∈ keysOf new_works ∧ id ∉ keysOf old_works)) ∧
      (∀ id, id ∈ (report_metadata_differences old_works new_works).removed ↔
        (id ∈ keysOf old_works ∧ id ∉ keysOf new_works)) ∧
      (∀ id od nd,
        (id, od, nd) ∈ (report_metadata_differences old_works new_works).updated ↔
        (id ∈ keysOf old_works ∧ id ∈ keysOf new_works ∧
          od = dateOf old_works id ∧ nd = dateOf new_works id ∧
          dateOf old_works id ≠ dateOf new_works id)) ∧
      (∀ id, id ∈ (report_metadata_differences old_works new_works).unchanged ↔
        (id ∈ keysOf old_works ∧ id ∈ keysOf new_works ∧
          dateOf old_works id = dateOf new_works id))) ∧
    report_metadata_differences
        [("A", ⟨"A", some "t1"⟩), ("B", ⟨"B", some "t2"⟩)]
        [("B", ⟨"B", some "t2"⟩), ("C", ⟨"C", some "t3"⟩)]
      = ⟨["C"], ["A"], [], ["B"]⟩ := by
  constructor
  · intro ow nw
    refine ⟨mem_diff_added ow nw, mem_diff_removed ow nw, ?_, ?_⟩
    · intro id od nd
      show (id, od, nd) ∈ (classify_common ow nw _).1 ↔ _
      rw [mem_classify_updated, mem_diff_common]
      tauto
    · intro id
      show id ∈ (classify_common ow nw _).2 ↔ _
      rw [mem_classify_unchanged, mem_diff_common]
      tauto
  · decide

/-- C10: in the JRP_scraper variant the composite output path
`merged_pdf_path work_base version` is character-for-character the same
string as the per-section path `pdf_path work_base version`; hence when a
merge group's base equals a member's full item id the composite output and
that member's section artifact share one file path. -/
theorem claim10_merged_path_equals_section_path :
    ∀ work_base member version : String, work_base = member →
      merged_pdf_path work_base version = pdf_path work_base version ∧
      merged_pdf_path work_base version = pdf_path member version := by
  intro work_base member version h
  subst h
  exact ⟨rfl, rfl⟩

theorem claim10_witness :
    ("Jos0101" : String) = "Jos0101" ∧
      (merged_pdf_path "Jos0101" "no_edit" = pdf_path "Jos0101" "no_edit" ∧
       merged_pdf_path "Jos0101" "no_edit" = pdf_path "Jos0101" "no_edit") :=
  ⟨rfl, claim10_merged_path_equals_section_path "Jos0101" "Jos0101" "no_edit" rfl⟩

-- ==============================
-- PDF VALIDATION (identical in both scripts)
-- ==============================

/-- `is_valid_pdf` (JRP_scraper.py lines 91-108, Josquin_PDF_scraper.py
lines 39-55; the two definitions are textually identical):
returns `False` if the path does not exist or the file is smaller than
`MIN_VALID_SIZE`; otherwise runs `pdfinfo` with `check=True`, returning
`True` on exit 0 and `False` on `subprocess.CalledProcessError`.  An
invocation error (`OSError`, e.g. the tool not being installed) is not
caught and propagates, modelled as `.error ()`. -/
def is_valid_pdf (env : Env) (fs : FS) (path : String) : Except Unit Bool :=
  match FS.lookup fs path with
  | none => .ok false
  | some d =>
      if d.size < MIN_VALID_SIZE then .ok false
      else
        match runPdfinfo env d with
        | .ok => .ok true
        | .nonzero => .ok false
        | .invocError => .error ()

/-- The Boolean value `is_valid_pdf` computes when the validator tool is
installed (so that no exception can escape). -/
def valid_check (_env : Env) (fs : FS) (path : String) : Bool :=
  match FS.lookup fs path with
  | none => false
  | some d => decide (MIN_VALID_SIZE ≤ d.size) && d.wellFormed

theorem is_valid_pdf_eq (env : Env) (fs : FS) (path : String)
    (h : env.toolInstalled = true) :
    is_valid_pdf env fs path = .ok (valid_check env fs path) := by
  unfold is_valid_pdf valid_check runPdfinfo
  rw [h]
  cases hl : FS.lookup fs path with
  | none => simp [hl]
  | some d =>
      simp only [hl]
      by_cases hs : d.size < MIN_VALID_SIZE
      · simp [hs, Nat.not_le.mpr hs]
      · cases hw : d.wellFormed <;> simp [hs, Nat.le_of_not_lt hs, hw]

theorem valid_check_of_not_exists (env : Env) (fs : FS) (path : String)
    (h : FS.exists fs path = false) : valid_check env fs path = false := by
  unfold valid_check
  have : FS.lookup fs path = none := by
    induction fs with
    | nil => rfl
    | cons e rest ih =>
        obtain ⟨q, d⟩ := e
        unfold FS.exists at h
        unfold FS.lookup
        by_cases hq : q = path
        · rw [if_pos hq] at h; exact absurd h (by simp)
        · rw [if_neg hq] at h
          rw [if_neg hq]
          exact ih h
  rw [this]

theorem valid_check_exists (env : Env) (fs : FS) (path : String)
    (h : valid_check env fs path = true) : FS.exists fs path = true := by
  by_cases he : FS.exists fs path = true
  · exact he
  · rw [valid_check_of_not_exists env fs path (by simpa using he)] at h
    exact absurd h (by simp)

theorem exists_remove_self (fs : FS) (p : String) :
    FS.exists (FS.remove fs p) p = false := by
  induction fs with
  | nil => rfl
  | cons e rest ih =>
      obtain ⟨q, d⟩ := e
      unfold FS.remove
      by_cases hq : q = p
      · rw [if_pos hq]; exact ih
      · rw [if_neg hq]
        unfold FS.exists
        rw [if_neg hq]
        exact ih

-- ==============================
-- RESULTS OF ONE FETCH / MERGE CALL
-- ==============================

/-- Observable result of one `download_pdf` call: the Python return value
(`some path` on success or skip, `none` on recorded failure), the
filesystem afterwards, the paths this call appended to the global
`missing_or_failed` list, how many `requests.get` calls it made, and
whether it removed a pre-existing file before issuing the request. -/
structure FetchResult where
  out : Option String
  fs : FS
  ledger : List String
  netCalls : Nat
  removedBeforeRequest : Bool
deriving DecidableEq, Repr

/-- Observable result of one `merge_work` call: the filesystem afterwards,
the paths appended to `missing_or_failed`, how many `pdfunite` calls were
made, and whether a `pdfunite` call exited non-zero
(`CalledProcessError`). -/
structure MergeResult where
  fs : FS
  ledger : List String
  toolCalls : Nat
  toolFailed : Bool
deriving DecidableEq, Repr

namespace JRP

/-- `download_pdf` of JRP_scraper.py (lines 115-159).  The skip test
`not force and os.path.exists(output_path) and is_valid_pdf(output_path)`
is evaluated outside any `try`, so an exception from `is_valid_pdf`
propagates; inside the `try`, the post-write size check and validation
raise `RuntimeError`, and the blanket `except Exception` handler logs,
appends `output_path` to `missing_or_failed`, removes the file if it
exists, and returns `None`. -/
def download_pdf (env : Env) (fs : FS) (work_id version : String)
    (force : Bool) : Except Unit FetchResult :=
  let output_path := pdf_path work_id version
  let skip : Except Unit Bool :=
    if force then .ok false
    else if FS.exists fs output_path then is_valid_pdf env fs output_path
    else .ok false
  match skip with
  | .error e => .error e
  | .ok true => .ok ⟨some output_path, fs, [], 0, false⟩
  | .ok false =>
      let removed := FS.exists fs output_path
      let fs1 := FS.remove fs output_path
      match env.http (url_for work_id version) with
      | none => .ok ⟨none, fs1, [output_path], 1, removed⟩
      | some content =>
          let fs2 := FS.write fs1 output_path content
          if content.size < MIN_VALID_SIZE then
            .ok ⟨none, FS.remove fs2 output_path, [output_path], 1, removed⟩
          else
            match is_valid_pdf env fs2 output_path with
            | .ok true => .ok ⟨some output_path, fs2, [], 1, removed⟩
            | .ok false => .ok ⟨none, FS.remove fs2 output_path, [output_path], 1, removed⟩
            | .error _ => .ok ⟨none, FS.remove fs2 output_path, [output_path], 1, removed⟩

/-- The `for sec in section_ids` loop of `merge_work` (JRP_scraper.py
lines 168-173): collect `pdf_path(sec, version)` for the sections whose
artifact currently validates.  `is_valid_pdf` runs outside any `try`, so
an exception propagates. -/
def collect_valid (env : Env) (fs : FS) (version : String) :
    List String → Except Unit (List String)
  | [] => .ok []
  | sec :: rest =>
      match is_valid_pdf env fs (pdf_path sec version) with
      | .error e => .error e
      | .ok true =>
          match collect_valid env fs version rest with
          | .error e => .error e
          | .ok l => .ok (pdf_path sec version :: l)
      | .ok false => collect_valid env fs version rest

/-- `merge_work` of JRP_scraper.py (lines 166-198): filter sections to the
currently-valid ones, return if fewer than two remain, skip if the merge
target exists and validates, otherwise run `pdfunite` and validate the
result; `except Exception` appends `output_path` to `missing_or_failed`
and removes the output file if it exists. -/
def merge_work (env : Env) (fs : FS) (section_ids : List String)
    (work_base version : String) : Except Unit MergeResult :=
  match collect_valid env fs version section_ids with
  | .error e => .error e
  | .ok valid_files =>
      if valid_files.length < 2 then .ok ⟨fs, [], 0, false⟩
      else
        let output_path := merged_pdf_path work_base version
        match (if FS.exists fs output_path then is_valid_pdf env fs output_path
               else .ok false : Except Unit Bool) with
        | .error e => .error e
        | .ok true => .ok ⟨fs, [], 0, false⟩
        | .ok false =>
            match env.pdfunite valid_files output_path with
            | .success content =>
                let fs1 := FS.write fs output_path content
                match is_valid_pdf env fs1 output_path with
                | .ok true => .ok ⟨fs1, [], 1, false⟩
                | .ok false => .ok ⟨FS.remove fs1 output_path, [output_path], 1, false⟩
                | .error _ => .ok ⟨FS.remove fs1 output_path, [output_path], 1, false⟩
            | .failed partialOut =>
                let fs1 := match partialOut with
                  | some d => FS.write fs output_path d
                  | none => fs
                .ok ⟨FS.remove fs1 output_path, [output_path], 1, true⟩

end JRP

namespace Josquin

/-- `download_pdf` of Josquin_PDF_scraper.py (lines 62-117).  No `force`
parameter: a valid existing file is always skipped.  The size and
structural checks after writing return `None` explicitly after appending
to `missing_or_failed` and removing the file; the surrounding
`except Exception` handler does the same for any other exception. -/
def download_pdf (env : Env) (fs : FS) (section_id version : String) :
    Except Unit FetchResult :=
  let output_path := section_pdf_path section_id version
  let skip : Except Unit Bool :=
    if FS.exists fs output_path then is_valid_pdf env fs output_path
    else .ok false
  match skip with
  | .error e => .error e
  | .ok true => .ok ⟨some output_path, fs, [], 0, false⟩
  | .ok false =>
      let removed := FS.exists fs output_path
      let fs1 := FS.remove fs output_path
      match env.http (url_for section_id version) with
      | none => .ok ⟨none, fs1, [output_path], 1, removed⟩
      | some content =>
          let fs2 := FS.write fs1 output_path content
          if content.size < MIN_VALID_SIZE then
            .ok ⟨none, FS.remove fs2 output_path, [output_path], 1, removed⟩
          else
            match is_valid_pdf env fs2 output_path with
            | .ok true => .ok ⟨some output_path, fs2, [], 1, removed⟩
            | .ok false => .ok ⟨none, FS.remove fs2 output_path, [output_path], 1, removed⟩
            | .error _ => .ok ⟨none, FS.remove fs2 output_path, [output_path], 1, removed⟩

/-- The `for path in section_files` loop of `merge_work`
(Josquin_PDF_scraper.py lines 128-132): `if path and is_valid_pdf(path)`
keeps the path; a falsy path (`None` or the empty string) or an invalid
artifact is skipped with only a log line. -/
def collect_valid_paths (env : Env) (fs : FS) :
    List (Option String) → Except Unit (List String)
  | [] => .ok []
  | p :: rest =>
      match p with
      | none => collect_valid_paths env fs rest
      | some s =>
          if s = "" then collect_valid_paths env fs rest
          else
            match is_valid_pdf env fs s with
            | .error e => .error e
            | .ok true =>
                match collect_valid_paths env fs rest with
                | .error e => .error e
                | .ok l => .ok (s :: l)
            | .ok false => collect_valid_paths env fs rest

/-- `merge_work` of Josquin_PDF_scraper.py (lines 124-157).  Unlike the
JRP variant it takes the member paths directly, performs no check of an
already-existing merge target, and its `except subprocess.CalledProcessError`
handler appends to `missing_or_failed` without removing the output file.
A post-merge validation failure removes the file; an invocation error
raised by the post-merge `is_valid_pdf` is not caught and propagates. -/
def merge_work (env : Env) (fs : FS) (section_files : List (Option String))
    (work_base version : String) : Except Unit MergeResult :=
  match collect_valid_paths env fs section_files with
  | .error e => .error e
  | .ok valid_files =>
      if valid_files.length < 2 then .ok ⟨fs, [], 0, false⟩
      else
        let output_path := josquin_merged_path work_base version
        match env.pdfunite valid_files output_path with
        | .success content =>
            let fs1 := FS.write fs output_path content
            match is_valid_pdf env fs1 output_path with
            | .ok true => .ok ⟨fs1, [], 1, false⟩
            | .ok false => .ok ⟨FS.remove fs1 output_path, [output_path], 1, false⟩
            | .error e => .error e
        | .failed partialOut =>
            let fs1 := match partialOut with
              | some d => FS.write fs output_path d
              | none => fs
            .ok ⟨fs1, [output_path], 1, true⟩

end Josquin

-- ==============================
-- C6: VALIDATOR
-- ==============================

/-- C6 (amended): when the validator tool is invocable, `is_valid_pdf`
returns (without raising) exactly the predicate "the path exists, its size
is at least `MIN_VALID_SIZE`, and `pdfinfo` exits successfully", and it
returns `false` (not an exception) on a non-zero tool exit.  When the tool
invocation itself errors (tool not installed), `is_valid_pdf` raises
instead of returning `false`. -/
theorem claim6_validator_totality (env : Env) (fs : FS) (path : String) :
    (env.toolInstalled = true →
      is_valid_pdf env fs path = .ok (valid_check env fs path) ∧
      (valid_check env fs path = true ↔
        ∃ d, FS.lookup fs path = some d ∧ MIN_VALID_SIZE ≤ d.size ∧
          runPdfinfo env d = .ok)) ∧
    (env.toolInstalled = false →
      ∀ d, FS.lookup fs path = some d → MIN_VALID_SIZE ≤ d.size →
        is_valid_pdf env fs path = .error ()) := by
  constructor
  · intro h
    refine ⟨is_valid_pdf_eq env fs path h, ?_⟩
    unfold valid_check runPdfinfo
    rw [h]
    cases hl : FS.lookup fs path with
    | none => simp
    | some d => cases hw : d.wellFormed <;> simp [hw]
  · intro h d hl hs
    unfold is_valid_pdf runPdfinfo
    simp only [hl]
    rw [h]
    simp [Nat.not_lt.mpr hs]

theorem claim6_witness :
    ((⟨true, fun _ => none, fun _ _ => .failed none⟩ : Env).toolInstalled = true) ∧
    (is_valid_pdf ⟨true, fun _ => none, fun _ _ => .failed none⟩
        [("doc.pdf", ⟨20000, true⟩)] "doc.pdf" = .ok true) :=
  ⟨rfl, by
    have h := (claim6_validator_totality ⟨true, fun _ => none, fun _ _ => .failed none⟩
      [("doc.pdf", ⟨20000, true⟩)] "doc.pdf").1 rfl
    rw [h.1]
    have : valid_check ⟨true, fun _ => none, fun _ _ => .failed none⟩
        [("doc.pdf", ⟨20000, true⟩)] "doc.pdf" = true := by decide
    rw [this]⟩

/-- C6 counterexample: with the file present and large enough but the
validator tool not invocable, `is_valid_pdf` raises an uncaught exception
(`subprocess.run` raises `FileNotFoundError`, which
`except subprocess.CalledProcessError` does not catch) instead of
returning `false` as the claim states. -/
theorem claim6_counterexample :
    is_valid_pdf ⟨false, fun _ => none, fun _ _ => .failed none⟩
        [("doc.pdf", ⟨20000, true⟩)] "doc.pdf" = .error () ∧
    is_valid_pdf ⟨false, fun _ => none, fun _ _ => .failed none⟩
        [("doc.pdf", ⟨20000, true⟩)] "doc.pdf" ≠ .ok false := by
  decide

-- ==============================
-- C2: FETCH SKIP / REFETCH SEMANTICS
-- ==============================

theorem skipCheck_eval (env : Env) (fs : FS) (p : String)
    (h : env.toolInstalled = true) :
    (if FS.exists fs p then is_valid_pdf env fs p else Except.ok false)
      = Except.ok (valid_check env fs p) := by
  by_cases he : FS.exists fs p = true
  · rw [if_pos he, is_valid_pdf_eq env fs p h]
  · have he' : FS.exists fs p = false := by simpa using he
    rw [he']
    simp [valid_check_of_not_exists env fs p he']

theorem skipCheck_eval_force (env : Env) (fs : FS) (p : String) (force : Bool)
    (h : env.toolInstalled = true) :
    (if force then Except.ok false
     else if FS.exists fs p then is_valid_pdf env fs p else Except.ok false)
      = Except.ok (!force && valid_check env fs p) := by
  cases force
  · simpa using skipCheck_eval env fs p h
  · simp

/-- C2: `fetch` performs no network call and returns the existing output
path unchanged iff `force` is false and the output path exists and
validates (`valid_check` is false when the path is absent); in every other
case any pre-existing file at the output path is removed before exactly
one network request is issued.  Stated for the JRP variant (which has the
`force` flag) and the Josquin variant (which behaves as `force = false`). -/
theorem claim2_fetch_skip_semantics (env : Env) (fs : FS)
    (work_id section_id version : String) (force : Bool)
    (h : env.toolInstalled = true) :
    (∃ r, JRP.download_pdf env fs work_id version force = .ok r ∧
      ((r.netCalls = 0 ∧ r.out = some (pdf_path work_id version) ∧ r.fs = fs) ↔
        (force = false ∧ valid_check env fs (pdf_path work_id version) = true)) ∧
      (¬(force = false ∧ valid_check env fs (pdf_path work_id version) = true) →
        r.netCalls = 1 ∧
          r.removedBeforeRequest = FS.exists fs (pdf_path work_id version))) ∧
    (∃ r, Josquin.download_pdf env fs section_id version = .ok r ∧
      ((r.netCalls = 0 ∧ r.out = some (section_pdf_path section_id version) ∧
          r.fs = fs) ↔
        valid_check env fs (section_pdf_path section_id version) = true) ∧
      (valid_check env fs (section_pdf_path section_id version) = false →
        r.netCalls = 1 ∧
          r.removedBeforeRequest =
            FS.exists fs (section_pdf_path section_id version))) := by
  constructor
  · -- JRP variant
    simp only [JRP.download_pdf]
    rw [skipCheck_eval_force env fs (pdf_path work_id version) force h]
    cases hv : (!force && valid_check env fs (pdf_path work_id version)) with
    | true =>
        obtain ⟨hf, hvc⟩ : force = false ∧
            valid_check env fs (pdf_path work_id version) = true := by
          constructor
          · cases force
            · rfl
            · simp at hv
          · cases hw : valid_check env fs (pdf_path work_id version)
            · rw [hw] at hv; simp at hv
            · rfl
        exact ⟨_, rfl, ⟨fun _ => ⟨hf, hvc⟩, fun _ => ⟨rfl, rfl, rfl⟩⟩,
          fun hn => absurd ⟨hf, hvc⟩ hn⟩
    | false =>
        have hrhs : ¬(force = false ∧
            valid_check env fs (pdf_path work_id version) = true) := by
          rintro ⟨hf, hvc⟩
          rw [hf, hvc] at hv
          simp at hv
        have tailIff : ∀ (o : Option String) (fs' : FS),
            ((1 = 0 ∧ o = some (pdf_path work_id version) ∧ fs' = fs) ↔
              (force = false ∧
                valid_check env fs (pdf_path work_id version) = true)) := by
          intro o fs'
          constructor
          · rintro ⟨h0, -, -⟩
            exact absurd h0 Nat.one_ne_zero
          · intro hc
            exact absurd hc hrhs
        cases hh : env.http (url_for work_id version) with
        | none => exact ⟨_, rfl, tailIff _ _, fun _ => ⟨rfl, rfl⟩⟩
        | some content =>
            by_cases hs : content.size < MIN_VALID_SIZE
            · dsimp only
              rw [if_pos hs]
              exact ⟨_, rfl, tailIff _ _, fun _ => ⟨rfl, rfl⟩⟩
            · dsimp only
              rw [if_neg hs]
              rw [is_valid_pdf_eq env _ _ h]
              cases hv2 : valid_check env
                  (FS.write (FS.remove fs (pdf_path work_id version))
                    (pdf_path work_id version) content)
                  (pdf_path work_id version) with
              | true => exact ⟨_, rfl, tailIff _ _, fun _ => ⟨rfl, rfl⟩⟩
              | false => exact ⟨_, rfl, tailIff _ _, fun _ => ⟨rfl, rfl⟩⟩
  · -- Josquin variant
    simp only [Josquin.download_pdf]
    rw [skipCheck_eval env fs (section_pdf_path section_id version) h]
    cases hv : valid_check env fs (section_pdf_path section_id version) with
    | true =>
        exact ⟨_, rfl, ⟨fun _ => rfl, fun _ => ⟨rfl, rfl, rfl⟩⟩,
          fun hn => absurd hn (by simp)⟩
    | false =>
        have tailIff : ∀ (o : Option String) (fs' : FS),
            ((1 = 0 ∧ o = some (section_pdf_path section_id version) ∧
                fs' = fs) ↔ (false = true)) := by
          intro o fs'
          constructor
          · rintro ⟨h0, -, -⟩
            exact absurd h0 Nat.one_ne_zero
          · intro hc
            exact absurd hc (by simp)
        cases hh : env.http (url_for section_id version) with
        | none => exact ⟨_, rfl, tailIff _ _, fun _ => ⟨rfl, rfl⟩⟩
        | some content =>
            by_cases hs : content.size < MIN_VALID_SIZE
            · dsimp only
              rw [if_pos hs]
              exact ⟨_, rfl, tailIff _ _, fun _ => ⟨rfl, rfl⟩⟩
            · dsimp only
              rw [if_neg hs]
              rw [is_valid_pdf_eq env _ _ h]
              cases hv2 : valid_check env
                  (FS.write (FS.remove fs (section_pdf_path section_id version))
                    (section_pdf_path section_id version) content)
                  (section_pdf_path section_id version) with
              | true => exact ⟨_, rfl, tailIff _ _, fun _ => ⟨rfl, rfl⟩⟩
              | false => exact ⟨_, rfl, tailIff _ _, fun _ => ⟨rfl, rfl⟩⟩

/-- An environment where every download succeeds with a valid file and the
merge tool succeeds; used to instantiate theorems with hypotheses. -/
def envOk : Env := ⟨true, fun _ => some ⟨20000, true⟩, fun _ _ => .success ⟨20000, true⟩⟩

theorem claim2_witness :
    envOk.toolInstalled = true ∧
    ∃ r, JRP.download_pdf envOk [] "Jos0101" "no_edit" false = .ok r ∧
      r.netCalls = 1 := by
  refine ⟨rfl, ?_⟩
  obtain ⟨⟨r, hr, -, himp⟩, -⟩ :=
    claim2_fetch_skip_semantics envOk [] "Jos0101" "Jos0102a" "no_edit" false rfl
  exact ⟨r, hr, (himp (fun hc => absurd hc.2 (by decide))).1⟩

-- ==============================
-- C7 / C3: MERGE FILTERING AND SKIP
-- ==============================

/-- The list of member artifact paths `merge_work` of JRP_scraper.py
actually merges: each section's `pdf_path`, kept iff it currently
validates. -/
def jrp_valid_filter (env : Env) (fs : FS) (version : String)
    (ids : List String) : List String :=
  (ids.map (fun sec => pdf_path sec version)).filter
    (fun p => valid_check env fs p)

/-- The list of member paths `merge_work` of Josquin_PDF_scraper.py
actually merges: the truthy paths among `section_files` that currently
validate. -/
def josquin_valid_filter (env : Env) (fs : FS)
    (files : List (Option String)) : List String :=
  files.filterMap (fun op =>
    match op with
    | none => none
    | some s =>
        if s = "" then none
        else if valid_check env fs s then some s else none)

theorem collect_valid_eq (env : Env) (fs : FS) (version : String)
    (ids : List String) (h : env.toolInstalled = true) :
    JRP.collect_valid env fs version ids =
      .ok (jrp_valid_filter env fs version ids) := by
  induction ids with
  | nil => rfl
  | cons sec rest ih =>
      simp only [JRP.collect_valid, is_valid_pdf_eq env fs _ h,
        jrp_valid_filter, List.map_cons, List.filter_cons]
      cases hv : valid_check env fs (pdf_path sec version) with
      | true =>
          simp only [if_pos rfl]
          rw [ih]
          rfl
      | false =>
          simp only [Bool.false_eq_true, if_neg (by decide : ¬false = true)]
          rw [ih]
          rfl

theorem collect_valid_paths_eq (env : Env) (fs : FS)
    (files : List (Option String)) (h : env.toolInstalled = true) :
    Josquin.collect_valid_paths env fs files =
      .ok (josquin_valid_filter env fs files) := by
  induction files with
  | nil => rfl
  | cons op rest ih =>
      cases op with
      | none =>
          simp only [Josquin.collect_valid_paths, josquin_valid_filter,
            List.filterMap_cons]
          rw [ih]
          rfl
      | some s =>
          simp only [Josquin.collect_valid_paths, josquin_valid_filter,
            List.filterMap_cons]
          by_cases hs : s = ""
          · rw [if_pos hs, if_pos hs, ih]
            rfl
          · rw [if_neg hs, if_neg hs, is_valid_pdf_eq env fs s h]
            cases hv : valid_check env fs s with
            | true =>
                rw [ih]
                rfl
            | false => rw [ih]; rfl

/-- C7: in both variants, members whose artifacts fail validation are
silently excluded from the merge input (the merged list is exactly the
filter of the given members by current validity), and when fewer than two
validated members remain `merge_work` returns leaving the filesystem
unchanged, invoking the merge tool zero times and appending nothing to
the failure ledger. -/
theorem claim7_insufficient_valid_members (env : Env) (fs : FS)
    (section_ids : List String) (section_files : List (Option String))
    (work_base version : String) (h : env.toolInstalled = true) :
    (JRP.collect_valid env fs version section_ids =
        .ok (jrp_valid_filter env fs version section_ids) ∧
      ((jrp_valid_filter env fs version section_ids).length < 2 →
        JRP.merge_work env fs section_ids work_base version =
          .ok ⟨fs, [], 0, false⟩)) ∧
    (Josquin.collect_valid_paths env fs section_files =
        .ok (josquin_valid_filter env fs section_files) ∧
      ((josquin_valid_filter env fs section_files).length < 2 →
        Josquin.merge_work env fs section_files work_base version =
          .ok ⟨fs, [], 0, false⟩)) := by
  refine ⟨⟨collect_valid_eq env fs version section_ids h, ?_⟩,
    ⟨collect_valid_paths_eq env fs section_files h, ?_⟩⟩
  · intro hlen
    simp only [JRP.merge_work, collect_valid_eq env fs version section_ids h]
    rw [if_pos hlen]
  · intro hlen
    simp only [Josquin.merge_work, collect_valid_paths_eq env fs section_files h]
    rw [if_pos hlen]

theorem claim7_witness :
    envOk.toolInstalled = true ∧
    (jrp_valid_filter envOk [] "no_edit" ["Jos0101a"]).length < 2 ∧
    JRP.merge_work envOk [] ["Jos0101a"] "Jos0101" "no_edit" =
      .ok ⟨[], [], 0, false⟩ := by
  refine ⟨rfl, by decide, ?_⟩
  exact ((claim7_insufficient_valid_members envOk [] ["Jos0101a"] []
    "Jos0101" "no_edit" rfl).1).2 (by decide)

/-- Projection: merge-tool invocations made by a `merge_work` call. -/
def mergeToolCalls (x : Except Unit MergeResult) : Nat :=
  match x with
  | .ok r => r.toolCalls
  | .error _ => 0

/-- Projection: ledger entries appended by a `merge_work` call. -/
def mergeLedger (x : Except Unit MergeResult) : List String :=
  match x with
  | .ok r => r.ledger
  | .error _ => []

/-- Projection: the filesystem after a `merge_work` call that returned. -/
def mergeFS (x : Except Unit MergeResult) : FS :=
  match x with
  | .ok r => r.fs
  | .error _ => []

/-- An environment whose merge tool always succeeds with a valid output
and whose downloads all fail; used for merge counterexamples. -/
def envMerge : Env := ⟨true, fun _ => none, fun _ _ => .success ⟨20000, true⟩⟩

/-- A filesystem holding two valid section artifacts and an
already-valid composite at the Josquin merge target. -/
def fsMergeJos : FS :=
  [(section_pdf_path "Jos0101a" "edit", ⟨20000, true⟩),
   (section_pdf_path "Jos0101b" "edit", ⟨20000, true⟩),
   (josquin_merged_path "Jos0101" "edit", ⟨20000, true⟩)]

/-- C3 counterexample: in the Josquin_PDF_scraper variant, even though the
target composite exists and validates, `merge_work` still invokes the
merge tool once (there is no skip check in that variant), contradicting
the claim that merge never invokes the tool on an existing valid
composite. -/
theorem claim3_counterexample :
    FS.exists fsMergeJos (josquin_merged_path "Jos0101" "edit") = true ∧
    valid_check envMerge fsMergeJos (josquin_merged_path "Jos0101" "edit") = true ∧
    mergeToolCalls (Josquin.merge_work envMerge fsMergeJos
      [some (section_pdf_path "Jos0101a" "edit"),
       some (section_pdf_path "Jos0101b" "edit")]
      "Jos0101" "edit") = 1 := by
  decide

/-- C3 (amended): in the JRP_scraper variant, if the target composite
output path exists and validates when `merge_work` is called, the call
returns without invoking the merge tool, leaving the filesystem unchanged
and appending nothing to the ledger.  (The Josquin_PDF_scraper variant
performs no such check; see the counterexample.) -/
theorem claim3_jrp_merge_idempotent (env : Env) (fs : FS)
    (section_ids : List String) (work_base version : String)
    (h : env.toolInstalled = true)
    (hvalid : valid_check env fs (merged_pdf_path work_base version) = true) :
    JRP.merge_work env fs section_ids work_base version =
      .ok ⟨fs, [], 0, false⟩ := by
  simp only [JRP.merge_work, collect_valid_eq env fs version section_ids h]
  by_cases hlen : (jrp_valid_filter env fs version section_ids).length < 2
  · rw [if_pos hlen]
  · rw [if_neg hlen, valid_check_exists env fs _ hvalid]
    simp [is_valid_pdf_eq env fs _ h, hvalid]

theorem claim3_witness :
    envMerge.toolInstalled = true ∧
    valid_check envMerge [(merged_pdf_path "Jos0101" "edit", ⟨20000, true⟩)]
      (merged_pdf_path "Jos0101" "edit") = true ∧
    JRP.merge_work envMerge [(merged_pdf_path "Jos0101" "edit", ⟨20000, true⟩)]
      ["Jos0101a", "Jos0101b"] "Jos0101" "edit" =
      .ok ⟨[(merged_pdf_path "Jos0101" "edit", ⟨20000, true⟩)], [], 0, false⟩ :=
  ⟨rfl, by decide,
    claim3_jrp_merge_idempotent envMerge
      [(merged_pdf_path "Jos0101" "edit", ⟨20000, true⟩)]
      ["Jos0101a", "Jos0101b"] "Jos0101" "edit" rfl (by decide)⟩

/-- Projection: ledger entries appended by a `download_pdf` call. -/
def fetchLedger (x : Except Unit FetchResult) : List String :=
  match x with
  | .ok r => r.ledger
  | .error _ => []

/-- Projection: the filesystem after a `download_pdf` call that returned. -/
def fetchFS (x : Except Unit FetchResult) : FS :=
  match x with
  | .ok r => r.fs
  | .error _ => []

/-- Projection: whether a `merge_work` call saw the merge tool exit
non-zero. -/
def mergeToolFailed (x : Except Unit MergeResult) : Bool :=
  match x with
  | .ok r => r.toolFailed
  | .error _ => false

/-- C4 (amended): every output path a fetch records in the failure ledger
is absent from the filesystem when the call returns, in both variants;
the same holds for JRP merge failures of any kind, and for Josquin merge
failures in which the merge tool itself did not exit non-zero.  (When the
Josquin merge tool exits non-zero, the recorded path may remain on disk;
see the counterexample.) -/
theorem claim4_failed_outputs_removed (env : Env) (fs : FS)
    (work_id section_id version work_base : String) (force : Bool)
    (section_ids : List String) (section_files : List (Option String))
    (h : env.toolInstalled = true) :
    (∀ p, p ∈ fetchLedger (JRP.download_pdf env fs work_id version force) →
      FS.exists (fetchFS (JRP.download_pdf env fs work_id version force)) p
        = false) ∧
    (∀ p, p ∈ fetchLedger (Josquin.download_pdf env fs section_id version) →
      FS.exists (fetchFS (Josquin.download_pdf env fs section_id version)) p
        = false) ∧
    (∀ p, p ∈ mergeLedger (JRP.merge_work env fs section_ids work_base version) →
      FS.exists
        (mergeFS (JRP.merge_work env fs section_ids work_base version)) p
        = false) ∧
    (mergeToolFailed (Josquin.merge_work env fs section_files work_base version)
        = false →
      ∀ p, p ∈ mergeLedger
          (Josquin.merge_work env fs section_files work_base version) →
        FS.exists
          (mergeFS (Josquin.merge_work env fs section_files work_base version))
          p = false) := by
  refine ⟨?_, ?_, ?_, ?_⟩
  · -- JRP download_pdf
    simp only [JRP.download_pdf]
    rw [skipCheck_eval_force env fs (pdf_path work_id version) force h]
    cases hv : (!force && valid_check env fs (pdf_path work_id version)) with
    | true => intro p hp; simp [fetchLedger] at hp
    | false =>
        cases hh : env.http (url_for work_id version) with
        | none =>
            intro p hp
            have hp' : p = pdf_path work_id version := by
              simpa [fetchLedger] using hp
            subst hp'
            exact exists_remove_self fs _
        | some content =>
            by_cases hs : content.size < MIN_VALID_SIZE
            · dsimp only
              rw [if_pos hs]
              intro p hp
              have hp' : p = pdf_path work_id version := by
                simpa [fetchLedger] using hp
              subst hp'
              exact exists_remove_self _ _
            · dsimp only
              rw [if_neg hs, is_valid_pdf_eq env _ _ h]
              cases hv2 : valid_check env
                  (FS.write (FS.remove fs (pdf_path work_id version))
                    (pdf_path work_id version) content)
                  (pdf_path work_id version) with
              | true => intro p hp; simp [fetchLedger] at hp
              | false =>
                  intro p hp
                  have hp' : p = pdf_path work_id version := by
                    simpa [fetchLedger] using hp
                  subst hp'
                  exact exists_remove_self _ _
  · -- Josquin download_pdf
    simp only [Josquin.download_pdf]
    rw [skipCheck_eval env fs (section_pdf_path section_id version) h]
    cases hv : valid_check env fs (section_pdf_path section_id version) with
    | true => intro p hp; simp [fetchLedger] at hp
    | false =>
        cases hh : env.http (url_for section_id version) with
        | none =>
            intro p hp
            have hp' : p = section_pdf_path section_id version := by
              simpa [fetchLedger] using hp
            subst hp'
            exact exists_remove_self fs _
        | some content =>
            by_cases hs : content.size < MIN_VALID_SIZE
            · dsimp only
              rw [if_pos hs]
              intro p hp
              have hp' : p = section_pdf_path section_id version := by
                simpa [fetchLedger] using hp
              subst hp'
              exact exists_remove_self _ _
            · dsimp only
              rw [if_neg hs, is_valid_pdf_eq env _ _ h]
              cases hv2 : valid_check env
                  (FS.write (FS.remove fs (section_pdf_path section_id version))
                    (section_pdf_path section_id version) content)
                  (section_pdf_path section_id version) with
              | true => intro p hp; simp [fetchLedger] at hp
              | false =>
                  intro p hp
                  have hp' : p = section_pdf_path section_id version := by
                    simpa [fetchLedger] using hp
                  subst hp'
                  exact exists_remove_self _ _
  · -- JRP merge_work
    simp only [JRP.merge_work, collect_valid_eq env fs version section_ids h]
    by_cases hlen : (jrp_valid_filter env fs version section_ids).length < 2
    · rw [if_pos hlen]
      intro p hp
      simp [mergeLedger] at hp
    · rw [if_neg hlen,
        skipCheck_eval env fs (merged_pdf_path work_base version) h]
      cases hv : valid_check env fs (merged_pdf_path work_base version) with
      | true => intro p hp; simp [mergeLedger] at hp
      | false =>
          cases hm : env.pdfunite (jrp_valid_filter env fs version section_ids)
              (merged_pdf_path work_base version) with
          | success content =>
              dsimp only
              rw [is_valid_pdf_eq env _ _ h]
              cases hv2 : valid_check env
                  (FS.write fs (merged_pdf_path work_base version) content)
                  (merged_pdf_path work_base version) with
              | true => intro p hp; simp [mergeLedger] at hp
              | false =>
                  intro p hp
                  have hp' : p = merged_pdf_path work_base version := by
                    simpa [mergeLedger] using hp
                  subst hp'
                  exact exists_remove_self _ _
          | failed partialOut =>
              intro p hp
              have hp' : p = merged_pdf_path work_base version := by
                simpa [mergeLedger] using hp
              subst hp'
              exact exists_remove_self _ _
  · -- Josquin merge_work
    simp only [Josquin.merge_work, collect_valid_paths_eq env fs section_files h]
    by_cases hlen : (josquin_valid_filter env fs section_files).length < 2
    · rw [if_pos hlen]
      intro _ p hp
      simp [mergeLedger] at hp
    · rw [if_neg hlen]
      cases hm : env.pdfunite (josquin_valid_filter env fs section_files)
          (josquin_merged_path work_base version) with
      | success content =>
          dsimp only
          rw [is_valid_pdf_eq env _ _ h]
          cases hv2 : valid_check env
              (FS.write fs (josquin_merged_path work_base version) content)
              (josquin_merged_path work_base version) with
          | true => intro _ p hp; simp [mergeLedger] at hp
          | false =>
              intro _ p hp
              have hp' : p = josquin_merged_path work_base version := by
                simpa [mergeLedger] using hp
              subst hp'
              exact exists_remove_self _ _
      | failed partialOut =>
          intro htf
          exact absurd htf (by simp [mergeToolFailed])

/-- An environment whose merge tool exits non-zero after writing a partial
(invalid) output file, and whose downloads all fail. -/
def envTorn : Env := ⟨true, fun _ => none, fun _ _ => .failed (some ⟨1000, false⟩)⟩

/-- Two valid Josquin section artifacts. -/
def fsTwoSections : FS :=
  [(section_pdf_path "Jos0101a" "edit", ⟨20000, true⟩),
   (section_pdf_path "Jos0101b" "edit", ⟨20000, true⟩)]

/-- C4 counterexample: in the Josquin_PDF_scraper variant, when the merge
tool exits non-zero leaving a partial composite, `merge_work` records the
output path in the failure ledger but does not delete the partial file,
which remains on disk after the operation returns. -/
theorem claim4_counterexample :
    mergeLedger (Josquin.merge_work envTorn fsTwoSections
        [some (section_pdf_path "Jos0101a" "edit"),
         some (section_pdf_path "Jos0101b" "edit")]
        "Jos0101" "edit")
      = [josquin_merged_path "Jos0101" "edit"] ∧
    FS.exists (mergeFS (Josquin.merge_work envTorn fsTwoSections
        [some (section_pdf_path "Jos0101a" "edit"),
         some (section_pdf_path "Jos0101b" "edit")]
        "Jos0101" "edit"))
      (josquin_merged_path "Jos0101" "edit") = true := by
  decide

/-- An environment where every network request fails. -/
def envNet : Env := ⟨true, fun _ => none, fun _ _ => .failed none⟩

theorem claim4_witness :
    envNet.toolInstalled = true ∧
    JRP.download_pdf envNet [] "Jos0101" "no_edit" false =
      .ok ⟨none, [], [pdf_path "Jos0101" "no_edit"], 1, false⟩ ∧
    FS.exists (fetchFS (JRP.download_pdf envNet [] "Jos0101" "no_edit" false))
      (pdf_path "Jos0101" "no_edit") = false :=
  ⟨rfl, by decide,
    (claim4_failed_outputs_removed envNet [] "Jos0101" "JosX" "no_edit"
      "Jos0101" false [] [] rfl).1 (pdf_path "Jos0101" "no_edit") (by decide)⟩

-- ==============================
-- DRIVER (JRP_scraper.py, load_works and main)
-- ==============================

/-- `load_works` of JRP_scraper.py (lines 42-59): read the cached snapshot
into `old_works` if the cache file exists, then fetch works.json;
`requests.get` / `raise_for_status` raising is NOT caught anywhere, so a
fetch failure (`fetched = none`) propagates and aborts the run, whether or
not a cache was loaded.  On success it returns
`(old_works, new_works, new_list)`. -/
def load_works (cache : Option (List Record))
    (fetched : Option (List Record)) :
    Except Unit (Works × Works × List Record) :=
  let old_works : Works :=
    match cache with
    | none => []
    | some old_list => build_works old_list
  match fetched with
  | none => .error ()
  | some new_list => .ok (old_works, build_works new_list, new_list)

/-- Externally visible events of one run of `main`, in program order. -/
inductive Event where
  | fetch (path : String)
  | mergeTool (path : String)
  | writeCache
  | writeReport
deriving DecidableEq, Repr

/-- State threaded through `main`: the filesystem, the global
`missing_or_failed` list, and the trace of emitted events. -/
structure RunState where
  fs : FS
  ledger : List String
  trace : List Event
deriving DecidableEq, Repr

/-- The per-item `force_download` computation of `main` (JRP_scraper.py
lines 271-281). -/
def force_for (old_works : Works) (work_id : String) (w : Record) : Bool :=
  match lookupW old_works work_id with
  | none => true
  | some ow =>
      if ow.DATE_CHANGED.getD "" = w.DATE_CHANGED.getD "" then false else true

/-- `work_groups[base].append(work_id)` on a `defaultdict(list)`: groups
are kept in first-insertion order of their keys, members in append
order. -/
def addToGroup (gs : List (String × List String)) (base work_id : String) :
    List (String × List String) :=
  match gs with
  | [] => [(base, [work_id])]
  | (b, ids) :: rest =>
      if b = base then (b, ids ++ [work_id]) :: rest
      else (b, ids) :: addToGroup rest base work_id

/-- The `for work_id, work in new_works.items()` loop of `main`
(JRP_scraper.py lines 266-284): group the id under its 7-character base,
compute `force_download`, and download both variants. -/
def syncLoop (env : Env) (old_works : Works) :
    List (String × Record) → RunState → List (String × List String) →
      Except Unit (RunState × List (String × List String))
  | [], st, gs => .ok (st, gs)
  | (work_id, w) :: rest, st, gs =>
      let gs1 := addToGroup gs (take_chars 7 work_id) work_id
      let force := force_for old_works work_id w
      match JRP.download_pdf env st.fs work_id "no_edit" force with
      | .error e => .error e
      | .ok r1 =>
          let st1 : RunState :=
            ⟨r1.fs, st.ledger ++ r1.ledger,
              st.trace ++ [Event.fetch (pdf_path work_id "no_edit")]⟩
          match JRP.download_pdf env st1.fs work_id "edit" force with
          | .error e => .error e
          | .ok r2 =>
              let st2 : RunState :=
                ⟨r2.fs, st1.ledger ++ r2.ledger,
                  st1.trace ++ [Event.fetch (pdf_path work_id "edit")]⟩
              syncLoop env old_works rest st2 gs1

/-- The `for base, sections in work_groups.items()` loop of `main`
(JRP_scraper.py lines 287-295): skip one-member groups, sort the
sections, merge both variants. -/
def mergeLoop (env : Env) :
    List (String × List String) → RunState → Except Unit RunState
  | [], st => .ok st
  | (base, sections) :: rest, st =>
      if sections.length < 2 then mergeLoop env rest st
      else
        let sorted := sortStrings sections
        match JRP.merge_work env st.fs sorted base "no_edit" with
        | .error e => .error e
        | .ok r1 =>
            let st1 : RunState :=
              ⟨r1.fs, st.ledger ++ r1.ledger,
                st.trace ++ [Event.mergeTool (merged_pdf_path base "no_edit")]⟩
            match JRP.merge_work env st1.fs sorted base "edit" with
            | .error e => .error e
            | .ok r2 =>
                let st2 : RunState :=
                  ⟨r2.fs, st1.ledger ++ r2.ledger,
                    st1.trace ++
                      [Event.mergeTool (merged_pdf_path base "edit")]⟩
                mergeLoop env rest st2

/-- Observable outcome of one `main` run. -/
structure RunResult where
  fs : FS
  ledger : List String
  trace : List Event
  diff : DiffReport
  cacheOut : List Record
  report : Option (List String)
deriving DecidableEq, Repr

namespace JRP

/-- `main` of JRP_scraper.py (lines 255-307): load the snapshots, print
the diff, download every work (both variants), merge every multi-section
group (both variants), write the new snapshot to the works cache, and, if
`missing_or_failed` is non-empty, write it (one path per line) to the
failure report file.  `cacheOut` is what is written to the works cache and
`report` the lines written to missing_or_failed.txt (if any). -/
def main (env : Env) (cache : Option (List Record))
    (fetched : Option (List Record)) : Except Unit RunResult :=
  match load_works cache fetched with
  | .error e => .error e
  | .ok (old_works, new_works, new_list) =>
      let diff := report_metadata_differences old_works new_works
      match syncLoop env old_works new_works ⟨[], [], []⟩ [] with
      | .error e => .error e
      | .ok (st, groups) =>
          match mergeLoop env groups st with
          | .error e => .error e
          | .ok st2 =>
              let trace2 := st2.trace ++ [Event.writeCache]
              if st2.ledger.isEmpty then
                .ok ⟨st2.fs, st2.ledger, trace2, diff, new_list, none⟩
              else
                .ok ⟨st2.fs, st2.ledger, trace2 ++ [Event.writeReport], diff,
                  new_list, some st2.ledger⟩

end JRP

/-- C5 counterexample: with a cached snapshot present (`works_cache.json`
holds one record) and the metadata fetch failing, `load_works` propagates
the exception and `main` aborts — the run does not proceed against the
cache as a stand-in for the new snapshot. -/
theorem claim5_counterexample :
    load_works (some [⟨"A", some "t1"⟩]) none = .error () ∧
    JRP.main envNet (some [⟨"A", some "t1"⟩]) none = .error () :=
  ⟨rfl, rfl⟩

/-- C5 (amended): metadata-retrieval failure at FETCH_NEW is always fatal
for the run, whether or not a cached snapshot exists; the cache is only
ever used as the old snapshot for diffing, never as a degraded stand-in
for the new one. -/
theorem claim5_fetch_failure_always_fatal :
    ∀ (env : Env) (cache : Option (List Record)),
      load_works cache none = .error () ∧
      JRP.main env cache none = .error () := by
  intro env cache
  exact ⟨rfl, rfl⟩

-- ==============================
-- RUN-LEVEL LEMMAS
-- ==============================

theorem download_pdf_isOk (env : Env) (fs : FS) (work_id version : String)
    (force : Bool) (h : env.toolInstalled = true) :
    ∃ r, JRP.download_pdf env fs work_id version force = .ok r := by
  simp only [JRP.download_pdf]
  rw [skipCheck_eval_force env fs (pdf_path work_id version) force h]
  cases hv : (!force && valid_check env fs (pdf_path work_id version)) with
  | true => exact ⟨_, rfl⟩
  | false =>
      cases hh : env.http (url_for work_id version) with
      | none => exact ⟨_, rfl⟩
      | some content =>
          by_cases hs : content.size < MIN_VALID_SIZE
          · dsimp only
            rw [if_pos hs]
            exact ⟨_, rfl⟩
          · dsimp only
            rw [if_neg hs, is_valid_pdf_eq env _ _ h]
            cases hv2 : valid_check env
                (FS.write (FS.remove fs (pdf_path work_id version))
                  (pdf_path work_id version) content)
                (pdf_path work_id version) with
            | true => exact ⟨_, rfl⟩
            | false => exact ⟨_, rfl⟩

theorem merge_work_isOk (env : Env) (fs : FS) (section_ids : List String)
    (work_base version : String) (h : env.toolInstalled = true) :
    ∃ r, JRP.merge_work env fs section_ids work_base version = .ok r := by
  simp only [JRP.merge_work, collect_valid_eq env fs version section_ids h]
  by_cases hlen : (jrp_valid_filter env fs version section_ids).length < 2
  · rw [if_pos hlen]
    exact ⟨_, rfl⟩
  · rw [if_neg hlen, skipCheck_eval env fs (merged_pdf_path work_base version) h]
    cases hv : valid_check env fs (merged_pdf_path work_base version) with
    | true => exact ⟨_, rfl⟩
    | false =>
        cases hm : env.pdfunite (jrp_valid_filter env fs version section_ids)
            (merged_pdf_path work_base version) with
        | success content =>
            dsimp only
            rw [is_valid_pdf_eq env _ _ h]
            cases hv2 : valid_check env
                (FS.write fs (merged_pdf_path work_base version) content)
                (merged_pdf_path work_base version) with
            | true => exact ⟨_, rfl⟩
            | false => exact ⟨_, rfl⟩
        | failed partialOut => exact ⟨_, rfl⟩

theorem syncLoop_ok (env : Env) (old_works : Works)
    (h : env.toolInstalled = true) :
    ∀ (items : List (String × Record)) (st : RunState)
      (gs : List (String × List String)),
      ∃ st' gs' tr, syncLoop env old_works items st gs = .ok (st', gs') ∧
        st'.trace = st.trace ++ tr ∧ ∀ e ∈ tr, ∃ p, e = Event.fetch p := by
  intro items
  induction items with
  | nil =>
      intro st gs
      exact ⟨st, gs, [], rfl, by simp, by simp⟩
  | cons item rest ih =>
      intro st gs
      obtain ⟨wid, w⟩ := item
      obtain ⟨r1, hr1⟩ :=
        download_pdf_isOk env st.fs wid "no_edit" (force_for old_works wid w) h
      obtain ⟨r2, hr2⟩ :=
        download_pdf_isOk env r1.fs wid "edit" (force_for old_works wid w) h
      obtain ⟨st', gs', tr, hloop, htr, hall⟩ :=
        ih ⟨r2.fs, (st.ledger ++ r1.ledger) ++ r2.ledger,
          (st.trace ++ [Event.fetch (pdf_path wid "no_edit")]) ++
            [Event.fetch (pdf_path wid "edit")]⟩
          (addToGroup gs (take_chars 7 wid) wid)
      refine ⟨st', gs',
        Event.fetch (pdf_path wid "no_edit") ::
          Event.fetch (pdf_path wid "edit") :: tr, ?_, ?_, ?_⟩
      · simp only [syncLoop, hr1, hr2]
        exact hloop
      · rw [htr]
        simp
      · intro e he
        rcases List.mem_cons.mp he with h1 | he2
        · exact ⟨_, h1⟩
        · rcases List.mem_cons.mp he2 with h2 | he3
          · exact ⟨_, h2⟩
          · exact hall e he3

theorem mergeLoop_ok (env : Env) (h : env.toolInstalled = true) :
    ∀ (gs : List (String × List String)) (st : RunState),
      ∃ st' tr, mergeLoop env gs st = .ok st' ∧
        st'.trace = st.trace ++ tr ∧ ∀ e ∈ tr, ∃ p, e = Event.mergeTool p := by
  intro gs
  induction gs with
  | nil =>
      intro st
      exact ⟨st, [], rfl, by simp, by simp⟩
  | cons g rest ih =>
      intro st
      obtain ⟨base, sections⟩ := g
      by_cases hlen : sections.length < 2
      · obtain ⟨st', tr, hloop, htr, hall⟩ := ih st
        refine ⟨st', tr, ?_, htr, hall⟩
        simp only [mergeLoop]
        rw [if_pos hlen]
        exact hloop
      · obtain ⟨r1, hr1⟩ :=
          merge_work_isOk env st.fs (sortStrings sections) base "no_edit" h
        obtain ⟨r2, hr2⟩ :=
          merge_work_isOk env r1.fs (sortStrings sections) base "edit" h
        obtain ⟨st', tr, hloop, htr, hall⟩ :=
          ih ⟨r2.fs, (st.ledger ++ r1.ledger) ++ r2.ledger,
            (st.trace ++ [Event.mergeTool (merged_pdf_path base "no_edit")]) ++
              [Event.mergeTool (merged_pdf_path base "edit")]⟩
        refine ⟨st',
          Event.mergeTool (merged_pdf_path base "no_edit") ::
            Event.mergeTool (merged_pdf_path base "edit") :: tr, ?_, ?_, ?_⟩
        · simp only [mergeLoop]
          rw [if_neg hlen]
          simp only [hr1, hr2]
          exact hloop
        · rw [htr]
          simp
        · intro e he
          rcases List.mem_cons.mp he with h1 | he2
          · exact ⟨_, h1⟩
          · rcases List.mem_cons.mp he2 with h2 | he3
            · exact ⟨_, h2⟩
            · exact hall e he3

/-- The `old_works` value `load_works` produces from the cache. -/
def loadOld (cache : Option (List Record)) : Works :=
  match cache with
  | none => []
  | some old_list => build_works old_list

theorem load_works_some (cache : Option (List Record))
    (worksL : List Record) :
    load_works cache (some worksL) =
      .ok (loadOld cache, build_works worksL, worksL) := by
  cases cache <;> rfl

theorem main_ok_spec (env : Env) (cache : Option (List Record))
    (worksL : List Record) (h : env.toolInstalled = true) :
    ∃ res, JRP.main env cache (some worksL) = .ok res ∧
      (∃ pre post, res.trace = pre ++ Event.writeCache :: post ∧
        (∀ e ∈ pre, (∃ p, e = Event.fetch p) ∨ (∃ p, e = Event.mergeTool p)) ∧
        (∀ e ∈ post, e = Event.writeReport)) ∧
      res.report = (if res.ledger.isEmpty then none else some res.ledger) ∧
      res.cacheOut = worksL := by
  obtain ⟨st1, gs1, tr1, hsync, htr1, hall1⟩ :=
    syncLoop_ok env (loadOld cache) h (build_works worksL) ⟨[], [], []⟩ []
  obtain ⟨st2, tr2, hmerge, htr2, hall2⟩ := mergeLoop_ok env h gs1 st1
  have htrace : st2.trace = tr1 ++ tr2 := by
    rw [htr2, htr1]
    simp
  have hpre : ∀ e ∈ tr1 ++ tr2,
      (∃ p, e = Event.fetch p) ∨ (∃ p, e = Event.mergeTool p) := by
    intro e he
    rcases List.mem_append.mp he with h1 | h2
    · exact Or.inl (hall1 e h1)
    · exact Or.inr (hall2 e h2)
  by_cases hled : st2.ledger.isEmpty = true
  · refine ⟨⟨st2.fs, st2.ledger, st2.trace ++ [Event.writeCache],
      report_metadata_differences (loadOld cache) (build_works worksL),
      worksL, none⟩, ?_, ?_, ?_, rfl⟩
    · simp only [JRP.main, load_works_some, hsync, hmerge]
      rw [if_pos hled]
    · refine ⟨tr1 ++ tr2, [], ?_, hpre, by simp⟩
      rw [htrace]
    · rw [hled]
      rfl
  · have hled' : st2.ledger.isEmpty = false := by
      simpa using hled
    refine ⟨⟨st2.fs, st2.ledger,
      (st2.trace ++ [Event.writeCache]) ++ [Event.writeReport],
      report_metadata_differences (loadOld cache) (build_works worksL),
      worksL, some st2.ledger⟩, ?_, ?_, ?_, rfl⟩
    · simp only [JRP.main, load_works_some, hsync, hmerge]
      rw [if_neg hled]
    · refine ⟨tr1 ++ tr2, [Event.writeReport], ?_, hpre, by simp⟩
      rw [htrace]
      simp
    · rw [hled']
      rfl

/-- C8: in every run that completes, the new snapshot is written to the
cache exactly once, strictly after every fetch and merge event of the run:
the run's event trace splits as fetch/merge events, then the cache write,
then at most the failure-report write.  A run interrupted before the last
fetch/merge therefore has not modified the cached snapshot. -/
theorem claim8_cache_written_after_all_work (env : Env)
    (cache : Option (List Record)) (worksL : List Record)
    (h : env.toolInstalled = true) :
    ∃ res pre post, JRP.main env cache (some worksL) = .ok res ∧
      res.trace = pre ++ Event.writeCache :: post ∧
      (∀ e ∈ pre, (∃ p, e = Event.fetch p) ∨ (∃ p, e = Event.mergeTool p)) ∧
      (∀ e ∈ post, e = Event.writeReport) := by
  obtain ⟨res, hmain, ⟨pre, post, hsplit, hpre, hpost⟩, -, -⟩ :=
    main_ok_spec env cache worksL h
  exact ⟨res, pre, post, hmain, hsplit, hpre, hpost⟩

theorem claim8_witness :
    envOk.toolInstalled = true ∧
    (∃ res pre post, JRP.main envOk none (some []) = .ok res ∧
      res.trace = pre ++ Event.writeCache :: post ∧
      (∀ e ∈ pre, (∃ p, e = Event.fetch p) ∨ (∃ p, e = Event.mergeTool p)) ∧
      (∀ e ∈ post, e = Event.writeReport)) :=
  ⟨rfl, claim8_cache_written_after_all_work envOk none [] rfl⟩

/-- Projection: the failure-report lines a completed run persisted. -/
def runReport (x : Except Unit RunResult) : Option (List String) :=
  match x with
  | .ok r => r.report
  | .error _ => none

/-- Projection: the failure ledger of a completed run. -/
def runLedger (x : Except Unit RunResult) : List String :=
  match x with
  | .ok r => r.ledger
  | .error _ => []

/-- C9 (amended): at the end of every completed run, the persisted failure
report is exactly the failure ledger, one line per ledger entry (and no
report is written when the ledger is empty); its line count therefore
equals the number of fetch/merge failure events.  Because a merge output
path can coincide with a failed section path (see the C10 path collision),
entries can repeat, so the line count may exceed the number of distinct
failed paths. -/
theorem claim9_report_is_ledger (env : Env) (cache : Option (List Record))
    (worksL : List Record) (h : env.toolInstalled = true) :
    ∃ res, JRP.main env cache (some worksL) = .ok res ∧
      res.report = (if res.ledger.isEmpty then none else some res.ledger) := by
  obtain ⟨res, hmain, -, hrep, -⟩ := main_ok_spec env cache worksL h
  exact ⟨res, hmain, hrep⟩

theorem claim9_witness :
    envNet.toolInstalled = true ∧
    (∃ res, JRP.main envNet none (some [⟨"Jos0101", some "t"⟩]) = .ok res ∧
      res.report = (if res.ledger.isEmpty then none else some res.ledger)) :=
  ⟨rfl, claim9_report_is_ledger envNet none [⟨"Jos0101", some "t"⟩] rfl⟩

/-- Environment for the C9 counterexample: downloads of work "Jos0101"
fail (both variants), all other downloads succeed with valid files, and
every merge-tool invocation exits non-zero without leaving a file. -/
def envC9 : Env :=
  ⟨true,
   fun u =>
     if u = url_for "Jos0101" "no_edit" then none
     else if u = url_for "Jos0101" "edit" then none
     else some ⟨20000, true⟩,
   fun _ _ => .failed none⟩

/-- Works list for the C9 counterexample: a 7-character work id that is
also the 7-character base of its two sibling sections. -/
def worksC9 : List Record :=
  [⟨"Jos0101", some "t"⟩, ⟨"Jos0101a", some "t"⟩, ⟨"Jos0101b", some "t"⟩]

/-- C9 counterexample: in this run both fetches of "Jos0101" fail and then
both merges of group "Jos0101" fail, and the merge output path equals the
section fetch path, so the persisted report has 4 lines while only 2
distinct output paths failed — the claimed equality between line count
and distinct failed paths does not hold. -/
theorem claim9_counterexample :
    runReport (JRP.main envC9 none (some worksC9)) =
      some [pdf_path "Jos0101" "no_edit", pdf_path "Jos0101" "edit",
        pdf_path "Jos0101" "no_edit", pdf_path "Jos0101" "edit"] ∧
    ((runReport (JRP.main envC9 none (some worksC9))).getD []).length = 4 ∧
    (dedup (runLedger (JRP.main envC9 none (some worksC9)))).length = 2 ∧
    ¬ ((runReport (JRP.main envC9 none (some worksC9))).getD []).length =
        (dedup (runLedger (JRP.main envC9 none (some worksC9)))).length := by
  decide
